import Mathlib

/-!
Verification of the windowed-aggregation and change-broadcast engine of the
GSOC_RAG repository, as a shallow embedding in Lean 4.

Python dictionaries (`Dict[str, V]`) are modelled as association lists
`List (String × V)` with at most one binding per key (Python dict keys are
unique); `dict.get` is `dictGet`, `dict[k] = v` is `dictInsert`.  Python
floats used for scores and velocities are modelled as rationals `ℚ` (every
value the pipeline manipulates here is an exact small decimal), integer
counters as `Int`/`Nat`, timestamps as `Int` (seconds since the epoch;
the source carries ISO 8601 strings and parses them with `strptime`).
Fallible lookups return `Option`.
-/

namespace GsocRag

/-- Source `d.get(k)` on a Python dict modelled as an association list. -/
def dictGet {β : Type} : List (String × β) → String → Option β
  | [], _ => none
  | (k1, v) :: rest, k => if k1 = k then some v else dictGet rest k

/-- Source `d[k] = v` on a Python dict: replace the binding in place if the key is
present, otherwise append it. -/
def dictInsert {β : Type} : List (String × β) → String → β → List (String × β)
  | [], k, v => [(k, v)]
  | (k1, v1) :: rest, k, v =>
    if k1 = k then (k, v) :: rest else (k1, v1) :: dictInsert rest k v

/-- The keys of a Python dict are pairwise distinct. -/
abbrev keysNodup {β : Type} (l : List (String × β)) : Prop :=
  (l.map Prod.fst).Nodup

/-! ## Embedding of backend/pipelines/activity_scoring.py -/

/-- Source `SCORE_WEIGHTS` (activity_scoring.py, lines 13-18). -/
def SCORE_WEIGHTS : List (String × Nat) :=
  [("commit", 1), ("pull_request", 3), ("issue", 2), ("release", 5)]

/-- Source `SCORE_WEIGHTS[k]`; every key used by the source is present, so the
default 0 is never reached. -/
def scoreWeight (k : String) : Nat := (dictGet SCORE_WEIGHTS k).getD 0

/-- The `activity_score` expression of `calculate_windowed_scores`
(activity_scoring.py, lines 134-139): counts weighted by `SCORE_WEIGHTS`. -/
def windowed_activity_score (commits prs issues releases : Nat) : Nat :=
  commits * scoreWeight "commit" +
  prs * scoreWeight "pull_request" +
  issues * scoreWeight "issue" +
  releases * scoreWeight "release"

/-! ## Embedding of backend/pipelines/temporal_windows.py -/

/-- One row of the events table after the `select` rename in
`TemporalWindows.apply_windows`.  The `metadata` payload column is carried
by the source but never inspected by any aggregation; it is kept as an
opaque string. -/
structure GhEvent where
  event_id : String
  repo_full_name : String
  event_type : String
  timestamp : Int
  title : String
  author : String
  url : String
  metadata : String
deriving DecidableEq

/-- Source `TemporalWindows.apply_windows` (temporal_windows.py, lines 34-74):
returns the full events table for each of the windows `1h`, `24h`, `7d`.
The source comment reads "For initial implementation, return the full
events table for each window"; no time-based filtering is applied. -/
def apply_windows (events : List GhEvent) : List (String × List GhEvent) :=
  [("1h", events), ("24h", events), ("7d", events)]

/-- One row of the per-(repo, window) aggregate produced by
`TemporalWindows.aggregate_by_window`. -/
structure WindowAggregate where
  repo_full_name : String
  window_period : String
  events_in_window : Nat
  commits_in_window : Nat
  prs_in_window : Nat
  issues_in_window : Nat
  releases_in_window : Nat
  latest_event_time : Option Int
deriving DecidableEq

/-- Source `pw.reducers.sum(pw.if_else(event_type == t, 1, 0))`: the number of
events of type `t`. -/
def countType (evs : List GhEvent) (t : String) : Nat :=
  (evs.filter fun e => e.event_type == t).length

/-- Source `pw.reducers.max` over the timestamps of a group. -/
def maxTimestamp (evs : List GhEvent) : Option Int :=
  evs.foldl
    (fun acc e =>
      match acc with
      | none => some e.timestamp
      | some m => some (max m e.timestamp))
    none

/-- Source `TemporalWindows.aggregate_by_window` (temporal_windows.py, lines
76-116): group the windowed events by `repo_full_name` and reduce to the
per-type counts plus the maximal timestamp. -/
def aggregate_by_window (window : String) (windowed_events : List GhEvent) :
    List WindowAggregate :=
  ((windowed_events.map fun e => e.repo_full_name).eraseDups).map fun r =>
    let g := windowed_events.filter fun e => e.repo_full_name == r
    { repo_full_name := r
      window_period := window
      events_in_window := g.length
      commits_in_window := countType g "commit"
      prs_in_window := countType g "pull_request"
      issues_in_window := countType g "issue"
      releases_in_window := countType g "release"
      latest_event_time := maxTimestamp g }

/-- Source `create_temporal_analysis` (temporal_windows.py, lines 119-153):
aggregate each windowed table under the key `repos_<window>`. -/
def create_temporal_analysis (events : List GhEvent) :
    List (String × List WindowAggregate) :=
  (apply_windows events).map fun t =>
    ("repos_" ++ t.1, aggregate_by_window t.1 t.2)

/-! ## Embedding of backend/pipelines/velocity_calculator.py -/

/-- Source `WINDOW_DURATIONS` (velocity_calculator.py, lines 13-17), in hours. -/
def WINDOW_DURATIONS : List (String × Nat) :=
  [("1h", 1), ("24h", 24), ("7d", 168)]

/-- An aggregate row extended with the `activity_score` column added by
`calculate_windowed_scores`. -/
structure ScoredRow where
  repo_full_name : String
  window_period : String
  events_in_window : Nat
  commits_in_window : Nat
  prs_in_window : Nat
  issues_in_window : Nat
  releases_in_window : Nat
  latest_event_time : Option Int
  activity_score : Nat
deriving DecidableEq

/-- Source `calculate_windowed_scores` (activity_scoring.py, lines 97-146): keep
the aggregate columns and add the weighted `activity_score`; each table is
re-keyed with a `_scored` suffix. -/
def calculate_windowed_scores (windowed_repos : List (String × List WindowAggregate)) :
    List (String × List ScoredRow) :=
  windowed_repos.map fun t =>
    (t.1 ++ "_scored",
     t.2.map fun r =>
       { repo_full_name := r.repo_full_name
         window_period := r.window_period
         events_in_window := r.events_in_window
         commits_in_window := r.commits_in_window
         prs_in_window := r.prs_in_window
         issues_in_window := r.issues_in_window
         releases_in_window := r.releases_in_window
         latest_event_time := r.latest_event_time
         activity_score :=
           windowed_activity_score r.commits_in_window r.prs_in_window
             r.issues_in_window r.releases_in_window })

/-- A scored row extended with the velocity columns added by
`VelocityCalculator.calculate_velocities`. -/
structure VelocityRow where
  repo_full_name : String
  window_period : String
  events_in_window : Nat
  commits_in_window : Nat
  prs_in_window : Nat
  issues_in_window : Nat
  releases_in_window : Nat
  latest_event_time : Option Int
  activity_score : Nat
  events_per_hour : ℚ
  commits_per_hour : ℚ
  prs_per_hour : ℚ
  issues_per_hour : ℚ
  releases_per_day : ℚ
  score_per_hour : ℚ
deriving DecidableEq

/-- The velocity columns of the `select` in
`VelocityCalculator.calculate_velocities` (velocity_calculator.py, lines
70-91), for a window of `duration_hours` hours. -/
def velocityColumns (duration_hours : ℚ) (r : ScoredRow) : VelocityRow :=
  { repo_full_name := r.repo_full_name
    window_period := r.window_period
    events_in_window := r.events_in_window
    commits_in_window := r.commits_in_window
    prs_in_window := r.prs_in_window
    issues_in_window := r.issues_in_window
    releases_in_window := r.releases_in_window
    latest_event_time := r.latest_event_time
    activity_score := r.activity_score
    events_per_hour := (r.events_in_window : ℚ) / duration_hours
    commits_per_hour := (r.commits_in_window : ℚ) / duration_hours
    prs_per_hour := (r.prs_in_window : ℚ) / duration_hours
    issues_per_hour := (r.issues_in_window : ℚ) / duration_hours
    releases_per_day := ((r.releases_in_window : ℚ) / duration_hours) * 24
    score_per_hour := (r.activity_score : ℚ) / duration_hours }

/-- Source `VelocityCalculator.calculate_velocities` (velocity_calculator.py,
lines 43-97).  The source recovers the window name from the table key
`repos_<w>_scored` by string replacement; the tables here are keyed by the
window name directly.  Windows absent from `WINDOW_DURATIONS` are skipped
with a warning. -/
def calculate_velocities (windowed_tables : List (String × List ScoredRow)) :
    List (String × List VelocityRow) :=
  windowed_tables.filterMap fun t =>
    match dictGet WINDOW_DURATIONS t.1 with
    | none => none
    | some d =>
      some ("repos_" ++ t.1 ++ "_velocity",
            t.2.map (velocityColumns (d : ℚ)))

/-! ## Embedding of backend/pipelines/trend_detector.py -/

/-- The `trend_status` column of the `select` in
`TrendDetector._compare_windows` (trend_detector.py, lines 116-128):
nested `pw.if_else` on `score_per_hour` with strict thresholds. -/
def trend_status (score_per_hour : ℚ) : String :=
  if score_per_hour > 5 then "🔥 HOT"
  else if score_per_hour > 2 then "📈 ACTIVE"
  else if score_per_hour > 0.5 then "📊 MODERATE"
  else "❄️ QUIET"

/-- The `momentum` column of the same `select` (trend_detector.py, lines
131-139). -/
def momentum (score_per_hour : ℚ) : String :=
  if score_per_hour > 5 then "ACCELERATING"
  else if score_per_hour > 1 then "STEADY"
  else "DECELERATING"

/-- A concrete event that is 7200 seconds old when "now" is 10000: outside
the 1h lookback of 3600 seconds. -/
def staleEvent : GhEvent :=
  { event_id := "evt-1"
    repo_full_name := "acme/widget"
    event_type := "commit"
    timestamp := 2800
    title := "old commit"
    author := "alice"
    url := "https://github.com/acme/widget/commit/1"
    metadata := "" }

/-- A scored row with every count and the score equal to zero. -/
def zeroScoredRow : ScoredRow :=
  { repo_full_name := "acme/widget"
    window_period := "24h"
    events_in_window := 0
    commits_in_window := 0
    prs_in_window := 0
    issues_in_window := 0
    releases_in_window := 0
    latest_event_time := none
    activity_score := 0 }

/-! ## Embedding of backend/api/models/websocket_events.py -/

/-- An event dictionary as consumed by the change detector
(`event.get(...)` may return `None` for any field). -/
structure EventDict where
  event_id : Option String
  repo_full_name : Option String
  event_type : Option String
  title : Option String
  author : Option String
  url : Option String
deriving DecidableEq

/-- Payload of `create_new_event_message` (websocket_events.py, lines
168-188), without the wall-clock `timestamp` field. -/
structure NewEventMsg where
  event_id : String
  repo_full_name : String
  event_type : String
  title : String
  author : String
  url : String
deriving DecidableEq

/-- Source `create_new_event_message` applied with the defaults used at its call
site in `ChangeDetector._detect_new_events` (change_detector.py, lines
123-130): `event.get("repo_full_name", "unknown")` and so on. -/
def create_new_event_message (e : EventDict) (eid : String) : NewEventMsg :=
  { event_id := eid
    repo_full_name := e.repo_full_name.getD "unknown"
    event_type := e.event_type.getD "unknown"
    title := e.title.getD ""
    author := e.author.getD "unknown"
    url := e.url.getD "" }

/-- A summary dictionary as consumed by the change detector; every field is
read with `.get(...)` and may be absent. -/
structure SummaryData where
  summary : Option String
  activity_score : Option ℚ
  trend_status : Option String
  momentum : Option String
  events_in_window : Option Int
deriving DecidableEq

/-- Payload of `create_summary_update_message` (websocket_events.py, lines
191-209), without the wall-clock `timestamp` field. -/
structure SummaryUpdateMsg where
  repo_full_name : String
  summary : String
  activity_score : ℚ
  trend_status : String
  momentum : String
  events_in_window : Int
deriving DecidableEq

/-- Source `create_summary_update_message` applied with the defaults used at its
call site in `ChangeDetector._detect_summary_changes` (change_detector.py,
lines 165-172). -/
def create_summary_update_message (r : String) (d : SummaryData) : SummaryUpdateMsg :=
  { repo_full_name := r
    summary := d.summary.getD ""
    activity_score := d.activity_score.getD 0
    trend_status := d.trend_status.getD "UNKNOWN"
    momentum := d.momentum.getD "UNKNOWN"
    events_in_window := d.events_in_window.getD 0 }

/-- The `change` field computed by `create_ranking_change_message`
(websocket_events.py, lines 219-229), with the branch order of the source:
`old_rank is None` first, then `new_rank > 10`, then the comparison. -/
def rankingChangeDirection (old_rank : Option Int) (new_rank : Int) : String :=
  match old_rank with
  | none => "new"
  | some o =>
    if new_rank > 10 then "out"
    else if o > new_rank then "up"
    else if o < new_rank then "down"
    else "none"

/-- Payload of `create_ranking_change_message` (websocket_events.py, lines
212-239), without the wall-clock `timestamp` field. -/
structure RankingChangeMsg where
  repo_full_name : String
  old_rank : Option Int
  new_rank : Int
  activity_score : ℚ
  change : String
deriving DecidableEq

/-- Source `create_ranking_change_message` (websocket_events.py, lines 212-239). -/
def create_ranking_change_message (r : String) (old_rank : Option Int)
    (new_rank : Int) (activity_score : ℚ) : RankingChangeMsg :=
  { repo_full_name := r
    old_rank := old_rank
    new_rank := new_rank
    activity_score := activity_score
    change := rankingChangeDirection old_rank new_rank }

/-- A trend dictionary as consumed by the change detector. -/
structure TrendData where
  trend_status : Option String
  momentum : Option String
deriving DecidableEq

/-- Payload of `create_trend_change_message` (websocket_events.py, lines
242-258); the old and new values come from `.get` calls and may be `None`. -/
structure TrendChangeMsg where
  repo_full_name : String
  old_trend : Option String
  new_trend : Option String
  old_momentum : Option String
  new_momentum : Option String
deriving DecidableEq

/-- Payload of `create_metrics_update_message` (websocket_events.py, lines
261-271), without the wall-clock `timestamp` field. -/
structure MetricsUpdateMsg where
  total_events : Int
  active_repositories : Int
  total_queries : Int
deriving DecidableEq

/-- Source `create_metrics_update_message` applied with the defaults used at its
call site in `ChangeDetector._detect_metrics_changes` (change_detector.py,
lines 290-294): `current_metrics.get(k, 0)` for each counter. -/
def create_metrics_update_message (m : List (String × Int)) : MetricsUpdateMsg :=
  { total_events := (dictGet m "total_events").getD 0
    active_repositories := (dictGet m "active_repositories").getD 0
    total_queries := (dictGet m "total_queries").getD 0 }

/-! ## Embedding of backend/api/utils/change_detector.py -/

/-- Source `ChangeDetector.previous_state` (change_detector.py, lines 36-42). -/
structure DetectorState where
  summaries : List (String × SummaryData)
  rankings : List (String × Int)
  trends : List (String × TrendData)
  event_ids : List String
  metrics : List (String × Int)
deriving DecidableEq

/-- The state set by `ChangeDetector.__init__`: everything empty. -/
def initialState : DetectorState :=
  { summaries := [], rankings := [], trends := [], event_ids := [], metrics := [] }

/-- Source `ChangeDetector.reset_state` (change_detector.py, lines 350-359). -/
def reset_state (_st : DetectorState) : DetectorState := initialState

/-- Source `ChangeDetector._detect_new_events` (change_detector.py, lines
106-141): walk the batch in order; an event is emitted and its id marked
seen exactly when `event.get("event_id")` is truthy (present and nonempty)
and not in the seen set.  Returns the messages and the new seen set. -/
def detect_new_events (seen : List String) :
    List EventDict → List NewEventMsg × List String
  | [] => ([], seen)
  | e :: rest =>
    match e.event_id with
    | none => detect_new_events seen rest
    | some i =>
      if i ≠ "" ∧ i ∉ seen then
        let tail := detect_new_events (i :: seen) rest
        (create_new_event_message e i :: tail.1, tail.2)
      else
        detect_new_events seen rest

/-- Source `ChangeDetector._detect_summary_changes` (change_detector.py, lines
143-183): for each repo in the current summaries, emit when the `summary`
text differs from the stored one (missing entries read as `""`), and
always store the new summary data.  The stored state is threaded through
the iteration exactly as the source mutates `previous_state["summaries"]`
inside its loop. -/
def detect_summary_changes (prev : List (String × SummaryData)) :
    List (String × SummaryData) → List SummaryUpdateMsg × List (String × SummaryData)
  | [] => ([], prev)
  | (r, d) :: rest =>
    let current_summary := d.summary.getD ""
    let previous_summary :=
      match dictGet prev r with
      | some p => p.summary.getD ""
      | none => ""
    let tail := detect_summary_changes (dictInsert prev r d) rest
    if current_summary ≠ previous_summary then
      (create_summary_update_message r d :: tail.1, tail.2)
    else tail

/-- The `activity_score` lookup of `ChangeDetector._detect_ranking_changes`
(change_detector.py, lines 203-208):
`previous_state["summaries"].get(repo, {}).get("activity_score", 0.0)`. -/
def summaryScore (summaries : List (String × SummaryData)) (r : String) : ℚ :=
  match dictGet summaries r with
  | some d => d.activity_score.getD 0
  | none => 0

/-- The message loop of `ChangeDetector._detect_ranking_changes`
(change_detector.py, lines 199-221): for each repo in the current
rankings, emit when the stored rank (`None` when absent) differs from the
new rank. -/
def rankingMessages (prevRankings : List (String × Int))
    (summaries : List (String × SummaryData)) :
    List (String × Int) → List RankingChangeMsg
  | [] => []
  | (r, n) :: rest =>
    let old := dictGet prevRankings r
    let tail := rankingMessages prevRankings summaries rest
    if old ≠ some n then
      create_ranking_change_message r old n (summaryScore summaries r) :: tail
    else tail

/-- Source `ChangeDetector._detect_ranking_changes` (change_detector.py, lines
185-226): the messages, and the stored rankings replaced wholesale by a
copy of the current ones. -/
def detect_ranking_changes (prevRankings : List (String × Int))
    (summaries : List (String × SummaryData))
    (current : List (String × Int)) :
    List RankingChangeMsg × List (String × Int) :=
  (rankingMessages prevRankings summaries current, current)

/-- Source `ChangeDetector._detect_trend_changes` (change_detector.py, lines
228-272): for each repo in the current trends, emit when either
`trend_status` or `momentum` differs from the stored value (both read via
`.get`, absent entries giving `None`), and always store the new data. -/
def detect_trend_changes (prev : List (String × TrendData)) :
    List (String × TrendData) → List TrendChangeMsg × List (String × TrendData)
  | [] => ([], prev)
  | (r, d) :: rest =>
    let old_trend :=
      match dictGet prev r with
      | some p => p.trend_status
      | none => none
    let old_momentum :=
      match dictGet prev r with
      | some p => p.momentum
      | none => none
    let tail := detect_trend_changes (dictInsert prev r d) rest
    if d.trend_status ≠ old_trend ∨ d.momentum ≠ old_momentum then
      ({ repo_full_name := r
         old_trend := old_trend
         new_trend := d.trend_status
         old_momentum := old_momentum
         new_momentum := d.momentum } :: tail.1, tail.2)
    else tail

/-- The thresholds of `ChangeDetector._metrics_changed_significantly`
(change_detector.py, lines 317-322). -/
def METRIC_THRESHOLDS : List (String × Nat) :=
  [("total_events", 10), ("active_repositories", 1), ("total_queries", 5)]

/-- Source `ChangeDetector._metrics_changed_significantly` (change_detector.py,
lines 304-331): true when some counter moved by at least its threshold,
absent counters reading as 0. -/
def metrics_changed_significantly (old new : List (String × Int)) : Bool :=
  METRIC_THRESHOLDS.any fun kt =>
    decide (kt.2 ≤ ((dictGet new kt.1).getD 0 - (dictGet old kt.1).getD 0).natAbs)

/-- Source `ChangeDetector._detect_metrics_changes` (change_detector.py, lines
274-302): emit exactly one message when the stored metrics dict is empty
(`not previous`) or the change is significant; in every case store a copy
of the current metrics. -/
def detect_metrics_changes (prev current : List (String × Int)) :
    List MetricsUpdateMsg × List (String × Int) :=
  if prev = [] ∨ metrics_changed_significantly prev current then
    ([create_metrics_update_message current], current)
  else
    ([], current)

/-- The tagged union of the five change message kinds returned by
`ChangeDetector.check_for_changes`. -/
inductive ChangeMsg where
  | newEvent (m : NewEventMsg)
  | summaryUpdate (m : SummaryUpdateMsg)
  | rankingChange (m : RankingChangeMsg)
  | trendChange (m : TrendChangeMsg)
  | metricsUpdate (m : MetricsUpdateMsg)
deriving DecidableEq

/-- Source `ChangeDetector.check_for_changes` (change_detector.py, lines 57-104):
run the five checks in source order — new events, summaries, rankings
(which reads the summaries state already updated by the summary check),
trends, metrics — concatenate their messages, and persist every updated
piece of state. -/
def check_for_changes (st : DetectorState)
    (current_summaries : List (String × SummaryData))
    (current_rankings : List (String × Int))
    (current_trends : List (String × TrendData))
    (current_events : List EventDict)
    (current_metrics : List (String × Int)) :
    List ChangeMsg × DetectorState :=
  let pe := detect_new_events st.event_ids current_events
  let ps := detect_summary_changes st.summaries current_summaries
  let pr := detect_ranking_changes st.rankings ps.2 current_rankings
  let pt := detect_trend_changes st.trends current_trends
  let pm := detect_metrics_changes st.metrics current_metrics
  (pe.1.map ChangeMsg.newEvent ++
     ps.1.map ChangeMsg.summaryUpdate ++
     pr.1.map ChangeMsg.rankingChange ++
     pt.1.map ChangeMsg.trendChange ++
     pm.1.map ChangeMsg.metricsUpdate,
   { summaries := ps.2
     rankings := pr.2
     trends := pt.2
     event_ids := pe.2
     metrics := pm.2 })

/-! ## Embedding of backend/api/routes/websocket.py -/

/-- A live WebSocket connection as the broadcast loop observes it:
`connected` is `client_state == WebSocketState.CONNECTED`, and `send_ok`
is whether `send_json` completes without raising.  `cid` identifies the
connection object. -/
structure WConn where
  cid : Nat
  connected : Bool
  send_ok : Bool
deriving DecidableEq

/-- Source `ConnectionManager.disconnect` (websocket.py, lines 61-83): remove the
connection from the live list if present (the per-connection metadata
bookkeeping and logging are not modelled). -/
def disconnect (conns : List WConn) (c : WConn) : List WConn :=
  if c ∈ conns then conns.erase c else conns

/-- The iteration of `ConnectionManager.broadcast` (websocket.py, lines
119-138): skip excluded connections, send to connected ones counting
successes, and collect as failed every connection that is not connected or
whose send raises.  Returns `(sent_count, failed_connections)`. -/
def broadcastLoop (exclude : List Nat) :
    List WConn → Nat × List WConn
  | [] => (0, [])
  | c :: rest =>
    let tail := broadcastLoop exclude rest
    if c.cid ∈ exclude then tail
    else if c.connected then
      if c.send_ok then (tail.1 + 1, tail.2)
      else (tail.1, c :: tail.2)
    else (tail.1, c :: tail.2)

/-- Source `ConnectionManager.broadcast` (websocket.py, lines 104-150): run the
send loop, then disconnect every failed connection, and return the number
of clients the message was sent to together with the remaining live
list. -/
def broadcast (active : List WConn) (exclude : List Nat) : Nat × List WConn :=
  let loop := broadcastLoop exclude active
  (loop.1, loop.2.foldl disconnect active)

/-! ## Concrete inputs used to instantiate the theorems -/

/-- A one-repo summaries dictionary. -/
def exSummary : List (String × SummaryData) :=
  [("acme/widget", ⟨some "1 event in the last hour", some 3, some "📈 ACTIVE", some "STEADY", some 1⟩)]

/-- A one-repo rankings dictionary. -/
def exRankings : List (String × Int) := [("acme/widget", 1)]

/-- A one-repo trends dictionary. -/
def exTrends : List (String × TrendData) := [("acme/widget", ⟨some "📈 ACTIVE", some "STEADY"⟩)]

/-- A one-event batch with a nonempty event id. -/
def exEvents : List EventDict :=
  [⟨some "evt-1", some "acme/widget", some "commit", some "a title", some "alice", some "u"⟩]

/-- A fully populated metrics dictionary. -/
def exMetrics : List (String × Int) :=
  [("total_events", 3), ("active_repositories", 1), ("total_queries", 0)]

/-! ## Association-list lemmas -/

theorem dictGet_dictInsert_self {β : Type} (l : List (String × β)) (k : String) (v : β) :
    dictGet (dictInsert l k v) k = some v := by
  induction l with
  | nil => simp [dictInsert, dictGet]
  | cons hd tl ih =>
    obtain ⟨k1, v1⟩ := hd
    by_cases h : k1 = k
    · simp [dictInsert, dictGet, h]
    · simp [dictInsert, dictGet, h, ih]

theorem dictGet_dictInsert_ne {β : Type} (l : List (String × β)) (k k2 : String) (v : β)
    (h : k ≠ k2) : dictGet (dictInsert l k v) k2 = dictGet l k2 := by
  induction l with
  | nil => simp [dictInsert, dictGet, h]
  | cons hd tl ih =>
    obtain ⟨k1, v1⟩ := hd
    by_cases h1 : k1 = k
    · subst h1
      simp [dictInsert, dictGet, h]
    · simp only [dictInsert, if_neg h1, dictGet]
      by_cases h2 : k1 = k2 <;> simp [dictGet, h2, ih]

theorem dictInsert_of_dictGet_eq {β : Type} (l : List (String × β)) (k : String) (v : β)
    (h : dictGet l k = some v) : dictInsert l k v = l := by
  induction l with
  | nil => simp [dictGet] at h
  | cons hd tl ih =>
    obtain ⟨k1, v1⟩ := hd
    by_cases h1 : k1 = k
    · subst h1
      simp [dictGet] at h
      simp [dictInsert, h]
    · simp [dictGet, h1] at h
      simp [dictInsert, h1, ih h]

theorem dictGet_eq_some_of_mem {β : Type} (l : List (String × β)) (k : String) (v : β)
    (hnd : keysNodup l) (hm : (k, v) ∈ l) : dictGet l k = some v := by
  induction l with
  | nil => simp at hm
  | cons hd tl ih =>
    obtain ⟨k1, v1⟩ := hd
    simp only [keysNodup, List.map_cons, List.nodup_cons] at hnd
    rcases List.mem_cons.mp hm with h | h
    · obtain ⟨hk, hv⟩ := Prod.mk.injEq .. ▸ h
      simp [dictGet, hk.symm, hv]
    · have hk1 : k1 ≠ k := by
        intro he
        exact hnd.1 (he ▸ (List.mem_map.mpr ⟨(k, v), h, rfl⟩))
      simp [dictGet, hk1, ih hnd.2 h]

/-! ## Claim theorems: pipeline stages -/

/-- C1 (code bug evidence): with "now" at 10000 seconds, `staleEvent`
(timestamp 2800) is 7200 seconds old, outside the 3600-second
lookback of the 1h window; yet `apply_windows` places the unfiltered event list in the `1h`
entry, and `aggregate_by_window` counts the stale event in
`events_in_window`, `commits_in_window` and `latest_event_time` of the 1h
aggregate — the claim requires it to contribute to none of them. -/
theorem stale_event_in_1h_aggregate :
    (10000 : Int) - staleEvent.timestamp > 3600 ∧
    dictGet (apply_windows [staleEvent]) "1h" = some [staleEvent] ∧
    (aggregate_by_window "1h" [staleEvent]).map
        (fun a => (a.events_in_window, a.commits_in_window, a.latest_event_time)) =
      [(1, 1, some 2800)] :=
  ⟨by decide, by decide, by decide⟩

/-- C2: the windowed activity score weights counts as
commits·1 + prs·3 + issues·2 + releases·5; counts (3,4,2,1) score 24. -/
theorem activity_score_weighted_sum :
    (∀ c p i r : Nat, windowed_activity_score c p i r = c * 1 + p * 3 + i * 2 + r * 5) ∧
    windowed_activity_score 3 4 2 1 = 24 := by
  have hc : scoreWeight "commit" = 1 := by decide
  have hp : scoreWeight "pull_request" = 3 := by decide
  have hi : scoreWeight "issue" = 2 := by decide
  have hr : scoreWeight "release" = 5 := by decide
  refine ⟨fun c p i r => ?_, by decide⟩
  simp only [windowed_activity_score, hc, hp, hi, hr]

/-- C3: trend status and momentum are pure functions of `score_per_hour`
with strict lower-bound thresholds (5 / 2 / 0.5 for status, 5 / 1 for
momentum); a value exactly on a boundary falls into the lower bucket, so
5 classifies ACTIVE and 5.01 classifies HOT. -/
theorem trend_classification_thresholds :
    (∀ x : ℚ, 5 < x → trend_status x = "🔥 HOT") ∧
    (∀ x : ℚ, 2 < x → x ≤ 5 → trend_status x = "📈 ACTIVE") ∧
    (∀ x : ℚ, 0.5 < x → x ≤ 2 → trend_status x = "📊 MODERATE") ∧
    (∀ x : ℚ, x ≤ 0.5 → trend_status x = "❄️ QUIET") ∧
    trend_status 5 = "📈 ACTIVE" ∧
    trend_status 5.01 = "🔥 HOT" ∧
    (∀ x : ℚ, 5 < x → momentum x = "ACCELERATING") ∧
    (∀ x : ℚ, 1 < x → x ≤ 5 → momentum x = "STEADY") ∧
    (∀ x : ℚ, x ≤ 1 → momentum x = "DECELERATING") := by
  refine ⟨fun x h => ?_, fun x h h2 => ?_, fun x h h2 => ?_, fun x h => ?_, ?_, ?_,
    fun x h => ?_, fun x h h2 => ?_, fun x h => ?_⟩
  · rw [trend_status, if_pos h]
  · rw [trend_status, if_neg (not_lt.mpr h2), if_pos h]
  · rw [trend_status, if_neg (not_lt.mpr (h2.trans (by norm_num))),
      if_neg (not_lt.mpr h2), if_pos h]
  · rw [trend_status, if_neg (not_lt.mpr (h.trans (by norm_num))),
      if_neg (not_lt.mpr (h.trans (by norm_num))), if_neg (not_lt.mpr h)]
  · norm_num [trend_status]
  · norm_num [trend_status]
  · rw [momentum, if_pos h]
  · rw [momentum, if_neg (not_lt.mpr h2), if_pos h]
  · rw [momentum, if_neg (not_lt.mpr (h.trans (by norm_num))), if_neg (not_lt.mpr h)]

/-- Witness for C3 at concrete inputs. -/
theorem trend_classification_thresholds_witness :
    ((5 : ℚ) < 6 ∧ trend_status 6 = "🔥 HOT") ∧
    ((2 : ℚ) < 3 ∧ (3 : ℚ) ≤ 5 ∧ trend_status 3 = "📈 ACTIVE") ∧
    ((0.5 : ℚ) < 1 ∧ (1 : ℚ) ≤ 2 ∧ trend_status 1 = "📊 MODERATE") ∧
    ((0.25 : ℚ) ≤ 0.5 ∧ trend_status 0.25 = "❄️ QUIET") ∧
    ((1 : ℚ) < 2 ∧ (2 : ℚ) ≤ 5 ∧ momentum 2 = "STEADY") ∧
    ((0.25 : ℚ) ≤ 1 ∧ momentum 0.25 = "DECELERATING") :=
  ⟨⟨by norm_num, trend_classification_thresholds.1 6 (by norm_num)⟩,
   ⟨by norm_num, by norm_num, trend_classification_thresholds.2.1 3 (by norm_num) (by norm_num)⟩,
   ⟨by norm_num, by norm_num, trend_classification_thresholds.2.2.1 1 (by norm_num) (by norm_num)⟩,
   ⟨by norm_num, trend_classification_thresholds.2.2.2.1 0.25 (by norm_num)⟩,
   ⟨by norm_num, by norm_num,
    trend_classification_thresholds.2.2.2.2.2.2.2.1 2 (by norm_num) (by norm_num)⟩,
   ⟨by norm_num, trend_classification_thresholds.2.2.2.2.2.2.2.2 0.25 (by norm_num)⟩⟩

/-- C4: for each window the velocity columns divide the counts and the
score of the window by its fixed duration in hours (1h→1, 24h→24, 7d→168), releases
additionally scaled to per-day by ·24; a row with zero counts gets
velocity 0, and 24 events over the 24h window give 1 event per hour. -/
theorem velocity_normalization :
    (∀ rows : List ScoredRow,
        calculate_velocities [("1h", rows), ("24h", rows), ("7d", rows)] =
          [("repos_1h_velocity", rows.map (velocityColumns 1)),
           ("repos_24h_velocity", rows.map (velocityColumns 24)),
           ("repos_7d_velocity", rows.map (velocityColumns 168))]) ∧
    (∀ (d : ℚ) (r : ScoredRow),
        (velocityColumns d r).events_per_hour = (r.events_in_window : ℚ) / d ∧
        (velocityColumns d r).commits_per_hour = (r.commits_in_window : ℚ) / d ∧
        (velocityColumns d r).prs_per_hour = (r.prs_in_window : ℚ) / d ∧
        (velocityColumns d r).issues_per_hour = (r.issues_in_window : ℚ) / d ∧
        (velocityColumns d r).releases_per_day = ((r.releases_in_window : ℚ) / d) * 24 ∧
        (velocityColumns d r).score_per_hour = (r.activity_score : ℚ) / d) ∧
    (velocityColumns 24 zeroScoredRow).events_per_hour = 0 ∧
    (velocityColumns 24 zeroScoredRow).score_per_hour = 0 ∧
    (velocityColumns 24 { zeroScoredRow with events_in_window := 24 }).events_per_hour = 1 := by
  have h1 : dictGet WINDOW_DURATIONS "1h" = some 1 := by decide
  have h24 : dictGet WINDOW_DURATIONS "24h" = some 24 := by decide
  have h7 : dictGet WINDOW_DURATIONS "7d" = some 168 := by decide
  refine ⟨fun rows => ?_, fun d r => ⟨rfl, rfl, rfl, rfl, rfl, rfl⟩,
    by norm_num [velocityColumns, zeroScoredRow],
    by norm_num [velocityColumns, zeroScoredRow],
    by norm_num [velocityColumns, zeroScoredRow]⟩
  simp [calculate_velocities, h1, h24, h7]

/-! ## Lemmas about the change detector -/

theorem detect_new_events_msgs (evs : List EventDict) :
    ∀ (seen : List String) (m : NewEventMsg), m ∈ (detect_new_events seen evs).1 →
      m.event_id ≠ "" ∧ ∃ e ∈ evs, e.event_id = some m.event_id := by
  induction evs with
  | nil => intro seen m hm; simp [detect_new_events] at hm
  | cons e rest ih =>
    intro seen m hm
    cases he : e.event_id with
    | none =>
      simp only [detect_new_events, he] at hm
      obtain ⟨h1, e2, h2, h3⟩ := ih seen m hm
      exact ⟨h1, e2, List.mem_cons_of_mem e h2, h3⟩
    | some i =>
      simp only [detect_new_events, he] at hm
      by_cases hc : i ≠ "" ∧ i ∉ seen
      · rw [if_pos hc] at hm
        rcases List.mem_cons.mp hm with h | h
        · subst h
          exact ⟨hc.1, e, List.mem_cons_self e rest, he⟩
        · obtain ⟨h1, e2, h2, h3⟩ := ih (i :: seen) m h
          exact ⟨h1, e2, List.mem_cons_of_mem e h2, h3⟩
      · rw [if_neg hc] at hm
        obtain ⟨h1, e2, h2, h3⟩ := ih seen m hm
        exact ⟨h1, e2, List.mem_cons_of_mem e h2, h3⟩

theorem detect_new_events_seen_mono (evs : List EventDict) :
    ∀ (seen : List String) (i : String), i ∈ seen → i ∈ (detect_new_events seen evs).2 := by
  induction evs with
  | nil => intro seen i h; simpa [detect_new_events] using h
  | cons e rest ih =>
    intro seen i h
    cases he : e.event_id with
    | none => simpa only [detect_new_events, he] using ih seen i h
    | some j =>
      simp only [detect_new_events, he]
      by_cases hc : j ≠ "" ∧ j ∉ seen
      · rw [if_pos hc]
        exact ih (j :: seen) i (List.mem_cons_of_mem j h)
      · rw [if_neg hc]
        exact ih seen i h

theorem detect_new_events_seen_sound (evs : List EventDict) :
    ∀ (seen : List String) (i : String), i ∈ (detect_new_events seen evs).2 →
      i ∈ seen ∨ (i ≠ "" ∧ ∃ e ∈ evs, e.event_id = some i) := by
  induction evs with
  | nil => intro seen i h; exact Or.inl (by simpa [detect_new_events] using h)
  | cons e rest ih =>
    intro seen i h
    cases he : e.event_id with
    | none =>
      simp only [detect_new_events, he] at h
      rcases ih seen i h with h1 | ⟨h1, e2, h2, h3⟩
      · exact Or.inl h1
      · exact Or.inr ⟨h1, e2, List.mem_cons_of_mem e h2, h3⟩
    | some j =>
      simp only [detect_new_events, he] at h
      by_cases hc : j ≠ "" ∧ j ∉ seen
      · rw [if_pos hc] at h
        rcases ih (j :: seen) i h with h1 | ⟨h1, e2, h2, h3⟩
        · rcases List.mem_cons.mp h1 with h4 | h4
          · subst h4
            exact Or.inr ⟨hc.1, e, List.mem_cons_self e rest, he⟩
          · exact Or.inl h4
        · exact Or.inr ⟨h1, e2, List.mem_cons_of_mem e h2, h3⟩
      · rw [if_neg hc] at h
        rcases ih seen i h with h1 | ⟨h1, e2, h2, h3⟩
        · exact Or.inl h1
        · exact Or.inr ⟨h1, e2, List.mem_cons_of_mem e h2, h3⟩

theorem detect_new_events_seen_covers (evs : List EventDict) :
    ∀ (seen : List String) (e : EventDict) (i : String),
      e ∈ evs → e.event_id = some i → i ≠ "" → i ∈ (detect_new_events seen evs).2 := by
  induction evs with
  | nil => intro seen e i h; simp at h
  | cons e1 rest ih =>
    intro seen e i hmem hid hne
    rcases List.mem_cons.mp hmem with h | h
    · subst h
      simp only [detect_new_events, hid]
      by_cases hc : i ≠ "" ∧ i ∉ seen
      · rw [if_pos hc]
        exact detect_new_events_seen_mono rest (i :: seen) i (List.mem_cons_self i seen)
      · rw [if_neg hc]
        have hi : i ∈ seen := by
          by_cases h2 : i ∈ seen
          · exact h2
          · exact absurd ⟨hne, h2⟩ hc
        exact detect_new_events_seen_mono rest seen i hi
    · cases he1 : e1.event_id with
      | none =>
        simp only [detect_new_events, he1]
        exact ih seen e i h hid hne
      | some j =>
        simp only [detect_new_events, he1]
        by_cases hc : j ≠ "" ∧ j ∉ seen
        · rw [if_pos hc]
          exact ih (j :: seen) e i h hid hne
        · rw [if_neg hc]
          exact ih seen e i h hid hne

theorem detect_new_events_noop (evs : List EventDict) :
    ∀ seen : List String,
      (∀ e ∈ evs, ∀ i, e.event_id = some i → i ≠ "" → i ∈ seen) →
      detect_new_events seen evs = ([], seen) := by
  induction evs with
  | nil => intro seen _; rfl
  | cons e rest ih =>
    intro seen h
    cases he : e.event_id with
    | none =>
      simp only [detect_new_events, he]
      exact ih seen fun e2 h2 i h3 h4 => h e2 (List.mem_cons_of_mem e h2) i h3 h4
    | some j =>
      have hj : ¬(j ≠ "" ∧ j ∉ seen) := by
        by_cases hje : j = ""
        · exact fun hco => hco.1 hje
        · exact fun hco => hco.2 (h e (List.mem_cons_self e rest) j he hje)
      simp only [detect_new_events, he, if_neg hj]
      exact ih seen fun e2 h2 i h3 h4 => h e2 (List.mem_cons_of_mem e h2) i h3 h4

theorem rankingMessages_mem_of_diff (prev : List (String × Int))
    (summ : List (String × SummaryData)) (cur : List (String × Int))
    (r : String) (n : Int) (hm : (r, n) ∈ cur) (hne : dictGet prev r ≠ some n) :
    create_ranking_change_message r (dictGet prev r) n (summaryScore summ r) ∈
      rankingMessages prev summ cur := by
  induction cur with
  | nil => simp at hm
  | cons hd tl ih =>
    obtain ⟨r1, n1⟩ := hd
    rcases List.mem_cons.mp hm with h | h
    · obtain ⟨hr, hn⟩ := Prod.mk.injEq .. ▸ h
      subst hr; subst hn
      simp only [rankingMessages, if_pos hne]
      exact List.mem_cons_self _ _
    · simp only [rankingMessages]
      by_cases hd1 : dictGet prev r1 ≠ some n1
      · rw [if_pos hd1]
        exact List.mem_cons_of_mem _ (ih h)
      · rw [if_neg hd1]
        exact ih h

theorem rankingMessages_repo_not_mem (prev : List (String × Int))
    (summ : List (String × SummaryData)) (cur : List (String × Int)) (r : String)
    (h : ∀ n : Int, (r, n) ∈ cur → dictGet prev r = some n) :
    ∀ m ∈ rankingMessages prev summ cur, m.repo_full_name ≠ r := by
  induction cur with
  | nil => intro m hm; simp [rankingMessages] at hm
  | cons hd tl ih =>
    obtain ⟨r1, n1⟩ := hd
    intro m hm
    have htl : ∀ n : Int, (r, n) ∈ tl → dictGet prev r = some n :=
      fun n hn => h n (List.mem_cons_of_mem _ hn)
    simp only [rankingMessages] at hm
    by_cases hd1 : dictGet prev r1 ≠ some n1
    · rw [if_pos hd1] at hm
      rcases List.mem_cons.mp hm with h2 | h2
      · subst h2
        intro hr
        simp only [create_ranking_change_message] at hr
        subst hr
        exact hd1 (h n1 (List.mem_cons_self _ _))
      · exact ih htl m h2
    · rw [if_neg hd1] at hm
      exact ih htl m hm

theorem rankingMessages_noop (prev : List (String × Int))
    (summ : List (String × SummaryData)) (cur : List (String × Int))
    (h : ∀ (r : String) (n : Int), (r, n) ∈ cur → dictGet prev r = some n) :
    rankingMessages prev summ cur = [] := by
  induction cur with
  | nil => rfl
  | cons hd tl ih =>
    obtain ⟨r1, n1⟩ := hd
    have h1 : ¬dictGet prev r1 ≠ some n1 :=
      not_not.mpr (h r1 n1 (List.mem_cons_self _ _))
    simp only [rankingMessages, if_neg h1]
    exact ih fun r n hn => h r n (List.mem_cons_of_mem _ hn)

theorem detect_summary_changes_state_stable (cur : List (String × SummaryData)) :
    ∀ (prev : List (String × SummaryData)) (r : String),
      r ∉ cur.map Prod.fst →
      dictGet (detect_summary_changes prev cur).2 r = dictGet prev r := by
  induction cur with
  | nil => intro prev r _; rfl
  | cons hd tl ih =>
    obtain ⟨r1, d1⟩ := hd
    intro prev r hr
    simp only [List.map_cons, List.mem_cons] at hr
    push_neg at hr
    have h2 : (detect_summary_changes prev ((r1, d1) :: tl)).2 =
        (detect_summary_changes (dictInsert prev r1 d1) tl).2 := by
      simp only [detect_summary_changes]
      split <;> rfl
    rw [h2, ih (dictInsert prev r1 d1) r hr.2,
      dictGet_dictInsert_ne prev r1 r d1 (fun he => hr.1 he.symm)]

theorem detect_summary_changes_state_get (cur : List (String × SummaryData)) :
    ∀ prev : List (String × SummaryData), keysNodup cur →
      ∀ (r : String) (d : SummaryData), (r, d) ∈ cur →
        dictGet (detect_summary_changes prev cur).2 r = some d := by
  induction cur with
  | nil => intro prev _ r d hm; simp at hm
  | cons hd tl ih =>
    obtain ⟨r1, d1⟩ := hd
    intro prev hnd r d hm
    simp only [keysNodup, List.map_cons, List.nodup_cons] at hnd
    have h2 : (detect_summary_changes prev ((r1, d1) :: tl)).2 =
        (detect_summary_changes (dictInsert prev r1 d1) tl).2 := by
      simp only [detect_summary_changes]
      split <;> rfl
    rcases List.mem_cons.mp hm with h | h
    · obtain ⟨hr, hd1⟩ := Prod.mk.injEq .. ▸ h
      subst hr; subst hd1
      rw [h2, detect_summary_changes_state_stable tl (dictInsert prev r d) r hnd.1,
        dictGet_dictInsert_self]
    · exact h2 ▸ ih (dictInsert prev r1 d1) hnd.2 r d h

theorem detect_summary_changes_noop (cur : List (String × SummaryData)) :
    ∀ prev : List (String × SummaryData),
      (∀ (r : String) (d : SummaryData), (r, d) ∈ cur → dictGet prev r = some d) →
      detect_summary_changes prev cur = ([], prev) := by
  induction cur with
  | nil => intro prev _; rfl
  | cons hd tl ih =>
    obtain ⟨r1, d1⟩ := hd
    intro prev h
    have hget : dictGet prev r1 = some d1 := h r1 d1 (List.mem_cons_self _ _)
    have hins : dictInsert prev r1 d1 = prev := dictInsert_of_dictGet_eq prev r1 d1 hget
    have heq : ¬d1.summary.getD "" ≠
        (match dictGet prev r1 with
         | some p => p.summary.getD ""
         | none => "") := by
      rw [hget]
      exact not_not.mpr rfl
    simp only [detect_summary_changes, hins, if_neg heq]
    exact ih prev fun r d hm => h r d (List.mem_cons_of_mem _ hm)

theorem detect_trend_changes_state_stable (cur : List (String × TrendData)) :
    ∀ (prev : List (String × TrendData)) (r : String),
      r ∉ cur.map Prod.fst →
      dictGet (detect_trend_changes prev cur).2 r = dictGet prev r := by
  induction cur with
  | nil => intro prev r _; rfl
  | cons hd tl ih =>
    obtain ⟨r1, d1⟩ := hd
    intro prev r hr
    simp only [List.map_cons, List.mem_cons] at hr
    push_neg at hr
    have h2 : (detect_trend_changes prev ((r1, d1) :: tl)).2 =
        (detect_trend_changes (dictInsert prev r1 d1) tl).2 := by
      simp only [detect_trend_changes]
      split <;> rfl
    rw [h2, ih (dictInsert prev r1 d1) r hr.2,
      dictGet_dictInsert_ne prev r1 r d1 (fun he => hr.1 he.symm)]

theorem detect_trend_changes_state_get (cur : List (String × TrendData)) :
    ∀ prev : List (String × TrendData), keysNodup cur →
      ∀ (r : String) (d : TrendData), (r, d) ∈ cur →
        dictGet (detect_trend_changes prev cur).2 r = some d := by
  induction cur with
  | nil => intro prev _ r d hm; simp at hm
  | cons hd tl ih =>
    obtain ⟨r1, d1⟩ := hd
    intro prev hnd r d hm
    simp only [keysNodup, List.map_cons, List.nodup_cons] at hnd
    have h2 : (detect_trend_changes prev ((r1, d1) :: tl)).2 =
        (detect_trend_changes (dictInsert prev r1 d1) tl).2 := by
      simp only [detect_trend_changes]
      split <;> rfl
    rcases List.mem_cons.mp hm with h | h
    · obtain ⟨hr, hd1⟩ := Prod.mk.injEq .. ▸ h
      subst hr; subst hd1
      rw [h2, detect_trend_changes_state_stable tl (dictInsert prev r d) r hnd.1,
        dictGet_dictInsert_self]
    · exact h2 ▸ ih (dictInsert prev r1 d1) hnd.2 r d h

theorem detect_trend_changes_noop (cur : List (String × TrendData)) :
    ∀ prev : List (String × TrendData),
      (∀ (r : String) (d : TrendData), (r, d) ∈ cur → dictGet prev r = some d) →
      detect_trend_changes prev cur = ([], prev) := by
  induction cur with
  | nil => intro prev _; rfl
  | cons hd tl ih =>
    obtain ⟨r1, d1⟩ := hd
    intro prev h
    have hget : dictGet prev r1 = some d1 := h r1 d1 (List.mem_cons_self _ _)
    have hins : dictInsert prev r1 d1 = prev := dictInsert_of_dictGet_eq prev r1 d1 hget
    have heq : ¬(d1.trend_status ≠
        (match dictGet prev r1 with
         | some p => p.trend_status
         | none => none) ∨
        d1.momentum ≠
        (match dictGet prev r1 with
         | some p => p.momentum
         | none => none)) := by
      rw [hget]
      push_neg
      exact ⟨rfl, rfl⟩
    simp only [detect_trend_changes, hins, if_neg heq]
    exact ih prev fun r d hm => h r d (List.mem_cons_of_mem _ hm)

theorem metrics_changed_significantly_self (m : List (String × Int)) :
    metrics_changed_significantly m m = false := by
  simp [metrics_changed_significantly, METRIC_THRESHOLDS]

theorem detect_metrics_changes_self (m : List (String × Int)) (h : m ≠ []) :
    detect_metrics_changes m m = ([], m) := by
  have hc : ¬(m = [] ∨ metrics_changed_significantly m m = true) := by
    rw [metrics_changed_significantly_self]
    simp [h]
  simp only [detect_metrics_changes, if_neg hc]

/-! ## Claim theorems: change detector and broadcast -/

/-- C5: for a repo in the current rankings (keys distinct, as in a Python
dict), a RankingChange message for it is emitted exactly when the new rank
differs from the stored rank (`none` when absent); the `change` field of
the message follows the precedence old_rank none → "new", then new_rank > 10 →
"out", then "up" / "down" / "none" by comparison; and the three concrete
examples of the claim hold. -/
theorem ranking_change_emission_direction :
    (∀ (prev cur : List (String × Int)) (summ : List (String × SummaryData))
        (r : String) (n : Int), keysNodup cur → (r, n) ∈ cur →
        ((dictGet prev r ≠ some n →
            create_ranking_change_message r (dictGet prev r) n (summaryScore summ r) ∈
              (detect_ranking_changes prev summ cur).1) ∧
         (dictGet prev r = some n →
            ∀ m ∈ (detect_ranking_changes prev summ cur).1, m.repo_full_name ≠ r))) ∧
    (∀ n : Int, rankingChangeDirection none n = "new") ∧
    (∀ o n : Int, 10 < n → rankingChangeDirection (some o) n = "out") ∧
    (∀ o n : Int, n ≤ 10 → n < o → rankingChangeDirection (some o) n = "up") ∧
    (∀ o n : Int, n ≤ 10 → o < n → rankingChangeDirection (some o) n = "down") ∧
    (∀ o : Int, o ≤ 10 → rankingChangeDirection (some o) o = "none") ∧
    rankingChangeDirection none 3 = "new" ∧
    rankingChangeDirection (some 2) 11 = "out" ∧
    rankingChangeDirection (some 5) 2 = "up" := by
  refine ⟨?_, fun n => rfl, fun o n h => ?_, fun o n h h2 => ?_, fun o n h h2 => ?_,
    fun o h => ?_, by decide, by decide, by decide⟩
  · intro prev cur summ r n hnd hm
    refine ⟨fun hne => rankingMessages_mem_of_diff prev summ cur r n hm hne, fun heq => ?_⟩
    refine rankingMessages_repo_not_mem prev summ cur r fun n2 hm2 => ?_
    have h1 : dictGet cur r = some n := dictGet_eq_some_of_mem cur r n hnd hm
    have h2 : dictGet cur r = some n2 := dictGet_eq_some_of_mem cur r n2 hnd hm2
    rw [h1] at h2
    exact (Option.some.inj h2) ▸ heq
  · rw [rankingChangeDirection, if_pos h]
  · rw [rankingChangeDirection, if_neg (not_lt.mpr h), if_pos h2]
  · rw [rankingChangeDirection, if_neg (not_lt.mpr h), if_neg (not_lt.mpr h2.le),
      if_pos h2]
  · rw [rankingChangeDirection, if_neg (not_lt.mpr h), if_neg (lt_irrefl o),
      if_neg (lt_irrefl o)]

/-- Witness for C5: with stored rank 2 and new rank 1 for repo "a",
the message with change computed from (some 2, 1) is emitted; and with
stored rank equal to the new rank nothing mentioning "a" is emitted. -/
theorem ranking_change_emission_direction_witness :
    keysNodup [("a", (1 : Int))] ∧ ("a", (1 : Int)) ∈ [("a", (1 : Int))] ∧
    dictGet [("a", (2 : Int))] "a" ≠ some 1 ∧
    create_ranking_change_message "a" (dictGet [("a", (2 : Int))] "a") 1 (summaryScore [] "a") ∈
      (detect_ranking_changes [("a", 2)] [] [("a", 1)]).1 ∧
    (10 : Int) < 11 ∧ rankingChangeDirection (some 2) 11 = "out" :=
  ⟨by decide, by decide, by decide,
   ((ranking_change_emission_direction.1 [("a", 2)] [("a", 1)] [] "a" 1
       (by decide) (by decide)).1 (by decide)),
   by decide, ranking_change_emission_direction.2.2.1 2 11 (by decide)⟩

/-- C6 counterexample: starting from an empty stored state, metrics
total_events = 100 emit a MetricsUpdate (the last emission); a later check
at 109 does not emit but silently overwrites the stored metrics; a further
check at 99 then emits although no counter has changed by its threshold
since the last emission (|99 − 100| = 1 < 10): the comparison is against
the metrics stored at the previous check, not those of the last emission. -/
theorem metrics_update_ignores_last_emission :
    (detect_metrics_changes [] [("total_events", 100)]).1.length = 1 ∧
    (detect_metrics_changes (detect_metrics_changes [] [("total_events", 100)]).2
        [("total_events", 109)]).1 = [] ∧
    metrics_changed_significantly [("total_events", 100)] [("total_events", 99)] = false ∧
    (detect_metrics_changes
        (detect_metrics_changes (detect_metrics_changes [] [("total_events", 100)]).2
            [("total_events", 109)]).2
        [("total_events", 99)]).1.length = 1 :=
  ⟨by decide, by decide, by decide, by decide⟩

/-- C6 (amended): when the stored previous metrics dictionary is nonempty,
a MetricsUpdate is emitted exactly when at least one counter differs from
the metrics stored at the previous check — overwritten on every check,
emitted or not — by at least its threshold (total_events 10,
active_repositories 1, total_queries 5); total_events 100 → 105 in one
check does not emit while 100 → 111 does. -/
theorem metrics_update_threshold_vs_previous_check
    (prev cur : List (String × Int)) (h : prev ≠ []) :
    ((detect_metrics_changes prev cur).1 ≠ [] ↔
      metrics_changed_significantly prev cur = true) ∧
    (detect_metrics_changes prev cur).2 = cur ∧
    (metrics_changed_significantly prev cur = true ↔
      10 ≤ ((dictGet cur "total_events").getD 0 -
              (dictGet prev "total_events").getD 0).natAbs ∨
      1 ≤ ((dictGet cur "active_repositories").getD 0 -
              (dictGet prev "active_repositories").getD 0).natAbs ∨
      5 ≤ ((dictGet cur "total_queries").getD 0 -
              (dictGet prev "total_queries").getD 0).natAbs) ∧
    (detect_metrics_changes [("total_events", 100)] [("total_events", 105)]).1 = [] ∧
    (detect_metrics_changes [("total_events", 100)] [("total_events", 111)]).1.length = 1 := by
  refine ⟨?_, ?_, ?_, by decide, by decide⟩
  · by_cases hs : metrics_changed_significantly prev cur = true
    · simp [detect_metrics_changes, hs]
    · simp [detect_metrics_changes, hs, h]
  · simp only [detect_metrics_changes]
    split <;> rfl
  · simp [metrics_changed_significantly, METRIC_THRESHOLDS]

/-- Witness for C6 at the example given by the claim: previous metrics
total_events = 100 are nonempty, and moving to 111 emits (iff the change
is significant, which it is). -/
theorem metrics_update_threshold_vs_previous_check_witness :
    [("total_events", (100 : Int))] ≠ [] ∧
    ((detect_metrics_changes [("total_events", 100)] [("total_events", 111)]).1 ≠ [] ↔
      metrics_changed_significantly [("total_events", 100)] [("total_events", 111)] = true) ∧
    metrics_changed_significantly [("total_events", 100)] [("total_events", 111)] = true :=
  ⟨by decide,
   (metrics_update_threshold_vs_previous_check [("total_events", 100)]
       [("total_events", 111)] (by decide)).1,
   by decide⟩

/-- C9: every message emitted by new-event detection carries a nonempty
event id taken from an event of the batch, and the seen-id set gains only
nonempty ids carried by events of the batch — an event whose event_id is
missing or empty produces no message and adds nothing. -/
theorem new_event_detection_skips_falsy_ids :
    (∀ (seen : List String) (evs : List EventDict) (m : NewEventMsg),
        m ∈ (detect_new_events seen evs).1 →
        m.event_id ≠ "" ∧ ∃ e ∈ evs, e.event_id = some m.event_id) ∧
    (∀ (seen : List String) (evs : List EventDict) (i : String),
        i ∈ (detect_new_events seen evs).2 →
        i ∈ seen ∨ (i ≠ "" ∧ ∃ e ∈ evs, e.event_id = some i)) :=
  ⟨fun seen evs m hm => detect_new_events_msgs evs seen m hm,
   fun seen evs i hi => detect_new_events_seen_sound evs seen i hi⟩

/-- Witness for C9: in a batch holding an event with a missing id, one
with an empty id and one with id "evt-1", the first emitted message has
the nonempty id "evt-1" coming from the batch, and "evt-1" in the final
seen set is accounted for by the batch. -/
theorem new_event_detection_skips_falsy_ids_witness :
    ((detect_new_events []
        [⟨none, none, none, none, none, none⟩,
         ⟨some "", none, none, none, none, none⟩,
         ⟨some "evt-1", some "acme/widget", some "commit", some "t", some "al", some "u"⟩]).1.head?.map
      (fun m => m.event_id) = some "evt-1") ∧
    ((create_new_event_message
        ⟨some "evt-1", some "acme/widget", some "commit", some "t", some "al", some "u"⟩
        "evt-1").event_id ≠ "" ∧
      ∃ e ∈ [(⟨none, none, none, none, none, none⟩ : EventDict),
             ⟨some "", none, none, none, none, none⟩,
             ⟨some "evt-1", some "acme/widget", some "commit", some "t", some "al", some "u"⟩],
        e.event_id = some (create_new_event_message
          ⟨some "evt-1", some "acme/widget", some "commit", some "t", some "al", some "u"⟩
          "evt-1").event_id) ∧
    ("evt-1" ∈ ([] : List String) ∨ ("evt-1" ≠ "" ∧
      ∃ e ∈ [(⟨none, none, none, none, none, none⟩ : EventDict),
             ⟨some "", none, none, none, none, none⟩,
             ⟨some "evt-1", some "acme/widget", some "commit", some "t", some "al", some "u"⟩],
        e.event_id = some "evt-1")) :=
  ⟨by decide,
   new_event_detection_skips_falsy_ids.1 []
     [⟨none, none, none, none, none, none⟩,
      ⟨some "", none, none, none, none, none⟩,
      ⟨some "evt-1", some "acme/widget", some "commit", some "t", some "al", some "u"⟩]
     (create_new_event_message
       ⟨some "evt-1", some "acme/widget", some "commit", some "t", some "al", some "u"⟩
       "evt-1")
     (by decide),
   new_event_detection_skips_falsy_ids.2 []
     [⟨none, none, none, none, none, none⟩,
      ⟨some "", none, none, none, none, none⟩,
      ⟨some "evt-1", some "acme/widget", some "commit", some "t", some "al", some "u"⟩]
     "evt-1" (by decide)⟩

/-- C10: whenever the stored previous metrics dictionary is empty — as
after construction (`initialState`) or `reset_state` — the metrics check
emits exactly one MetricsUpdate whatever the current counters are, even
all zero, and stores the current metrics as previous. -/
theorem first_cycle_metrics_always_emit (st : DetectorState) (cur : List (String × Int)) :
    (detect_metrics_changes initialState.metrics cur).1 =
      [create_metrics_update_message cur] ∧
    (detect_metrics_changes (reset_state st).metrics cur).1 =
      [create_metrics_update_message cur] ∧
    (detect_metrics_changes [] cur).2 = cur ∧
    (detect_metrics_changes []
        [("total_events", 0), ("active_repositories", 0), ("total_queries", 0)]).1.length = 1 := by
  refine ⟨?_, ?_, ?_, by decide⟩ <;>
    simp [detect_metrics_changes, initialState, reset_state]

theorem detect_metrics_changes_snd (prev cur : List (String × Int)) :
    (detect_metrics_changes prev cur).2 = cur := by
  simp only [detect_metrics_changes]
  split <;> rfl

/-- C7 counterexample: with every input empty — in particular an empty
metrics dictionary — the second of two identical consecutive runs still
emits a message (the metrics check re-fires whenever the stored metrics
dict is empty, and an empty current dict keeps it empty), so the detector
is not idempotent for every input tuple. -/
theorem second_identical_run_emits_on_empty_metrics :
    (check_for_changes (check_for_changes initialState [] [] [] [] []).2
        [] [] [] [] []).1 =
      [ChangeMsg.metricsUpdate (create_metrics_update_message [])] :=
  by decide

/-- C7 (amended): for inputs whose dictionaries have distinct keys (as
Python dicts do) and whose metrics dictionary is nonempty, running
`check_for_changes` twice in a row on the same input produces zero
messages on the second run: every check persists the new state as
"previous" whether or not anything was emitted. -/
theorem change_detector_idempotent_nonempty_metrics (st : DetectorState)
    (summ : List (String × SummaryData)) (rank : List (String × Int))
    (tr : List (String × TrendData)) (evs : List EventDict)
    (met : List (String × Int))
    (hs : keysNodup summ) (hr : keysNodup rank) (ht : keysNodup tr)
    (hm : met ≠ []) :
    (check_for_changes (check_for_changes st summ rank tr evs met).2
        summ rank tr evs met).1 = [] := by
  set st1 := (check_for_changes st summ rank tr evs met).2 with hst1
  have h1 : st1.summaries = (detect_summary_changes st.summaries summ).2 := by
    rw [hst1]; rfl
  have h2 : st1.rankings = rank := by rw [hst1]; rfl
  have h3 : st1.trends = (detect_trend_changes st.trends tr).2 := by rw [hst1]; rfl
  have h4 : st1.event_ids = (detect_new_events st.event_ids evs).2 := by rw [hst1]; rfl
  have h5 : st1.metrics = met := by
    rw [hst1]
    show (detect_metrics_changes st.metrics met).2 = met
    exact detect_metrics_changes_snd st.metrics met
  have hev : detect_new_events st1.event_ids evs = ([], st1.event_ids) := by
    refine detect_new_events_noop evs _ ?_
    intro e he i hid hne
    rw [h4]
    exact detect_new_events_seen_covers evs st.event_ids e i he hid hne
  have hsum : detect_summary_changes st1.summaries summ = ([], st1.summaries) := by
    refine detect_summary_changes_noop summ _ ?_
    intro r d hmem
    rw [h1]
    exact detect_summary_changes_state_get summ st.summaries hs r d hmem
  have htr : detect_trend_changes st1.trends tr = ([], st1.trends) := by
    refine detect_trend_changes_noop tr _ ?_
    intro r d hmem
    rw [h3]
    exact detect_trend_changes_state_get tr st.trends ht r d hmem
  have hrank : rankingMessages st1.rankings st1.summaries rank = [] := by
    refine rankingMessages_noop _ _ rank ?_
    intro r n hmem
    rw [h2]
    exact dictGet_eq_some_of_mem rank r n hr hmem
  have hmet : detect_metrics_changes st1.metrics met = ([], met) := by
    rw [h5]
    exact detect_metrics_changes_self met hm
  simp [check_for_changes, detect_ranking_changes, hev, hsum, htr, hmet, hrank]

/-- Witness for C7 (amended) on one-repo inputs with nonempty metrics. -/
theorem change_detector_idempotent_nonempty_metrics_witness :
    keysNodup exSummary ∧ keysNodup exRankings ∧ keysNodup exTrends ∧
    exMetrics ≠ [] ∧
    (check_for_changes
        (check_for_changes initialState exSummary exRankings exTrends exEvents exMetrics).2
        exSummary exRankings exTrends exEvents exMetrics).1 = [] :=
  ⟨by decide, by decide, by decide, by decide,
   change_detector_idempotent_nonempty_metrics initialState exSummary exRankings
     exTrends exEvents exMetrics (by decide) (by decide) (by decide) (by decide)⟩

theorem broadcastLoop_count (exclude : List Nat) (conns : List WConn) :
    (broadcastLoop exclude conns).1 =
      (conns.filter fun c => decide (c.cid ∉ exclude) && c.connected && c.send_ok).length := by
  induction conns with
  | nil => rfl
  | cons c rest ih =>
    by_cases h1 : c.cid ∈ exclude
    · simp [broadcastLoop, h1, ih]
    · cases h2 : c.connected <;> cases h3 : c.send_ok <;>
        simp [broadcastLoop, h1, h2, h3, ih]

theorem broadcastLoop_failed (exclude : List Nat) (conns : List WConn) :
    (broadcastLoop exclude conns).2 =
      conns.filter fun c => decide (c.cid ∉ exclude) && !(c.connected && c.send_ok) := by
  induction conns with
  | nil => rfl
  | cons c rest ih =>
    by_cases h1 : c.cid ∈ exclude
    · simp [broadcastLoop, h1, ih]
    · cases h2 : c.connected <;> cases h3 : c.send_ok <;>
        simp [broadcastLoop, h1, h2, h3, ih]

theorem mem_of_mem_foldl_disconnect (fs : List WConn) :
    ∀ (l : List WConn) (a : WConn), a ∈ List.foldl disconnect l fs → a ∈ l := by
  induction fs with
  | nil => intro l a h; exact h
  | cons f fs ih =>
    intro l a h
    have h2 := ih (disconnect l f) a h
    by_cases hf : f ∈ l
    · simp only [disconnect, if_pos hf] at h2
      exact List.mem_of_mem_erase h2
    · simpa only [disconnect, if_neg hf] using h2

theorem not_mem_foldl_disconnect_of_not_mem (fs : List WConn) (l : List WConn)
    (a : WConn) (h : a ∉ l) : a ∉ List.foldl disconnect l fs :=
  fun hmem => h (mem_of_mem_foldl_disconnect fs l a hmem)

theorem nodup_disconnect (l : List WConn) (f : WConn) (h : l.Nodup) :
    (disconnect l f).Nodup := by
  unfold disconnect
  split
  · exact h.erase f
  · exact h

theorem not_mem_foldl_disconnect (fs : List WConn) :
    ∀ (l : List WConn) (a : WConn), l.Nodup → a ∈ fs →
      a ∉ List.foldl disconnect l fs := by
  induction fs with
  | nil => intro l a _ h; simp at h
  | cons f fs ih =>
    intro l a hnd ha
    rcases List.mem_cons.mp ha with h | h
    · subst h
      refine not_mem_foldl_disconnect_of_not_mem fs (disconnect l a) a ?_
      by_cases hf : a ∈ l
      · simp only [disconnect, if_pos hf]
        intro hmem
        exact ((List.Nodup.mem_erase_iff hnd).mp hmem).1 rfl
      · simpa only [disconnect, if_neg hf] using hf
    · exact ih (disconnect l f) a (nodup_disconnect l f hnd) h

/-- C8: over a live connection list with distinct connections, `broadcast`
returns as count exactly the number of non-excluded, connected connections
whose send succeeds (so a failing subscriber never aborts delivery to the
others), and by return time every non-excluded connection that was not
connected or whose send failed has been deregistered from the live list;
the live list only ever shrinks. -/
theorem broadcast_failure_isolation (active : List WConn) (exclude : List Nat)
    (hnd : active.Nodup) :
    (broadcast active exclude).1 =
      (active.filter fun c => decide (c.cid ∉ exclude) && c.connected && c.send_ok).length ∧
    (∀ c ∈ active, c.cid ∉ exclude → ¬(c.connected = true ∧ c.send_ok = true) →
      c ∉ (broadcast active exclude).2) ∧
    (∀ c ∈ (broadcast active exclude).2, c ∈ active) := by
  refine ⟨broadcastLoop_count exclude active, fun c hc hex hfail => ?_, fun c hc => ?_⟩
  · have hf : c ∈ (broadcastLoop exclude active).2 := by
      rw [broadcastLoop_failed]
      refine List.mem_filter.mpr ⟨hc, ?_⟩
      cases h2 : c.connected <;> cases h3 : c.send_ok <;>
        simp_all
    exact not_mem_foldl_disconnect _ active c hnd hf
  · exact mem_of_mem_foldl_disconnect _ active c hc

/-- Witness for C8: three live connections — one healthy, one whose send
fails, one not in the connected state — with nothing excluded: the count
is the filter length, and the failing connection is pruned. -/
theorem broadcast_failure_isolation_witness :
    ([⟨1, true, true⟩, ⟨2, true, false⟩, ⟨3, false, true⟩] : List WConn).Nodup ∧
    (⟨2, true, false⟩ : WConn) ∈
      ([⟨1, true, true⟩, ⟨2, true, false⟩, ⟨3, false, true⟩] : List WConn) ∧
    (broadcast [⟨1, true, true⟩, ⟨2, true, false⟩, ⟨3, false, true⟩] []).1 =
      (([⟨1, true, true⟩, ⟨2, true, false⟩, ⟨3, false, true⟩] : List WConn).filter
        fun c => decide (c.cid ∉ ([] : List Nat)) && c.connected && c.send_ok).length ∧
    (⟨2, true, false⟩ : WConn) ∉
      (broadcast [⟨1, true, true⟩, ⟨2, true, false⟩, ⟨3, false, true⟩] []).2 :=
  ⟨by decide, by decide,
   (broadcast_failure_isolation [⟨1, true, true⟩, ⟨2, true, false⟩, ⟨3, false, true⟩]
       [] (by decide)).1,
   (broadcast_failure_isolation [⟨1, true, true⟩, ⟨2, true, false⟩, ⟨3, false, true⟩]
       [] (by decide)).2.1 ⟨2, true, false⟩ (by decide) (by decide) (by decide)⟩

end GsocRag
